import Mathlib

/-!
Verification of the hierarchical memory consolidation engine
(src/memory/manager.ts, src/memory/types.ts, src/providers/chroma.ts).

The TypeScript data model and the MemoryManager methods are shallowly
embedded as executable Lean definitions.  External collaborators
(the chromadb vector store's ranking, the OpenAI embedding endpoint,
the chat completion endpoint, the JS runtime's Math.sqrt) are abstracted
as oracle parameters collected in `Ports`; everything the repository
itself computes is translated from the source.

Modelling conventions:
- JS `number` values used as timestamps/durations become `Int`
  (epoch milliseconds); rates, similarities and embedding components
  become `Rat`.
- JS division is total and yields NaN / plus-or-minus Infinity on a zero
  denominator; `jsDiv` models the non-finite outcomes as `none`.
- `JSON.stringify`/`JSON.parse` round-trips of a Memory record are
  modelled as the identity: a stored document carries the Memory value.
- JS truthiness checks on optional strings and numbers are spelled out
  where the source relies on them (empty string and 0 are falsy).
-/

/-- The MemoryLevel string enum from src/memory/types.ts. -/
inductive MemoryLevel where
  | workingMemory
  | shortTerm
  | longTerm
  | episodic
  | semantic
deriving DecidableEq, Repr

/-- The string value of a MemoryLevel (the TS enum is string valued). -/
def memoryLevelString : MemoryLevel → String
  | .workingMemory => "working_memory"
  | .shortTerm => "short_term"
  | .longTerm => "long_term"
  | .episodic => "episodic"
  | .semantic => "semantic"

/-- The MemoryType string enum from src/memory/types.ts. -/
inductive MemoryType where
  | observation
  | inference
  | decision
  | knowledge
  | experience
  | feedback
  | error
  | success
  | collaboration
  | context
deriving DecidableEq, Repr

/-- The string value of a MemoryType. -/
def memoryTypeString : MemoryType → String
  | .observation => "observation"
  | .inference => "inference"
  | .decision => "decision"
  | .knowledge => "knowledge"
  | .experience => "experience"
  | .feedback => "feedback"
  | .error => "error"
  | .success => "success"
  | .collaboration => "collaboration"
  | .context => "context"

/-- MemoryImportance is a numeric TS enum (Low=1, Medium=2, High=3,
Critical=4); it is embedded as the underlying number. -/
abbrev MemoryImportance := Nat

/-- MemoryImportance.Low = 1. -/
def MemoryImportance.Low : MemoryImportance := 1

/-- MemoryImportance.Medium = 2. -/
def MemoryImportance.Medium : MemoryImportance := 2

/-- MemoryImportance.High = 3. -/
def MemoryImportance.High : MemoryImportance := 3

/-- MemoryImportance.Critical = 4. -/
def MemoryImportance.Critical : MemoryImportance := 4

/-- MemoryMetadata from src/memory/types.ts. -/
structure MemoryMetadata where
  source : String
  type : MemoryType
  context : Option String
  tags : List String
  relatedMemories : List String
  agentId : String
  taskId : Option String
  projectId : String
deriving DecidableEq, Repr

/-- Memory from src/memory/types.ts.  `timestamp` and `lastAccessed` are
Date values embedded as epoch milliseconds. -/
structure Memory where
  id : String
  content : String
  level : MemoryLevel
  importance : MemoryImportance
  timestamp : Int
  lastAccessed : Int
  accessCount : Nat
  metadata : MemoryMetadata
  embeddings : Option (List Rat)
deriving DecidableEq, Repr

/-- MemorySearchResult from src/memory/types.ts. -/
structure MemorySearchResult where
  memory : Memory
  similarity : Rat
  context : Option String
deriving DecidableEq, Repr

/-- The `Partial<MemoryMetadata>` filter accepted by `queryMemories`.
Only `projectId` is ever read by the manager; `agentId` is the one other
field callers (enforceCapacityLimits) actually pass. -/
structure PartialMetadataFilter where
  agentId : Option String
  projectId : Option String
deriving DecidableEq, Repr

/-- MemoryQuery from src/memory/types.ts; absent optional fields are
`none`. `timeRange` is the (start, end) pair. -/
structure MemoryQuery where
  content : Option String
  level : Option MemoryLevel
  type : Option MemoryType
  importance : Option MemoryImportance
  timeRange : Option (Int × Int)
  metadata : Option PartialMetadataFilter
  tags : Option (List String)
  limit : Option Nat
  similarityThreshold : Option Rat
deriving DecidableEq, Repr

/-- The all-absent query; source code builds query objects by listing
only the present fields. -/
def baseQuery : MemoryQuery :=
  { content := none, level := none, type := none, importance := none
  , timeRange := none, metadata := none, tags := none, limit := none
  , similarityThreshold := none }

/-- ConsolidationRule.conditions from src/memory/types.ts
(`minAge` is a duration in milliseconds). -/
structure ConsolidationConditions where
  minImportance : MemoryImportance
  minAccessCount : Nat
  minAge : Int
  requiredTags : Option (List String)
  requiredTypes : Option (List MemoryType)
deriving DecidableEq, Repr

/-- ConsolidationRule.transformations; the TS fields are optional
booleans and an absent flag behaves exactly like `false`. -/
structure ConsolidationTransformations where
  summarize : Bool
  combineRelated : Bool
  extractPatterns : Bool
  generalizeKnowledge : Bool
deriving DecidableEq, Repr

/-- ConsolidationRule from src/memory/types.ts. -/
structure ConsolidationRule where
  sourceLevel : MemoryLevel
  targetLevel : MemoryLevel
  conditions : ConsolidationConditions
  transformations : ConsolidationTransformations
deriving DecidableEq, Repr

/-- MemoryConfig from src/memory/types.ts. -/
structure MemoryConfig where
  maxWorkingMemories : Nat
  maxShortTermMemories : Nat
  workingMemoryTTL : Int
  shortTermMemoryTTL : Int
  consolidationInterval : Int
  minImportanceForLongTerm : MemoryImportance
  similarityThreshold : Rat
  consolidationRules : List ConsolidationRule
deriving DecidableEq, Repr

/-- ConsolidationResult from src/memory/types.ts (the source always
sets `summary`, so it is embedded as a plain String). -/
structure ConsolidationResult where
  sourceMemories : List String
  newMemory : Memory
  level : MemoryLevel
  summary : String
deriving DecidableEq, Repr

/-- MemoryStats from src/memory/types.ts.  The by-level / by-type /
by-importance records are embedded as counting functions; the three
rates are JS numbers that can be NaN (embedded as `none`, see `jsDiv`). -/
structure MemoryStats where
  totalMemories : Nat
  byLevel : MemoryLevel → Nat
  byType : MemoryType → Nat
  byImportance : Nat → Nat
  averageAccessCount : Option Rat
  consolidationRate : Option Rat
  retentionRate : Option Rat

/-- The `defaultConfig` field of MemoryManager (manager.ts lines 21-59). -/
def defaultConfig : MemoryConfig :=
  { maxWorkingMemories := 10
  , maxShortTermMemories := 100
  , workingMemoryTTL := 5 * 60 * 1000
  , shortTermMemoryTTL := 24 * 60 * 60 * 1000
  , consolidationInterval := 60 * 60 * 1000
  , minImportanceForLongTerm := MemoryImportance.Medium
  , similarityThreshold := 7 / 10
  , consolidationRules :=
      [ { sourceLevel := .workingMemory
        , targetLevel := .shortTerm
        , conditions :=
            { minImportance := MemoryImportance.Low
            , minAccessCount := 2
            , minAge := 5 * 60 * 1000
            , requiredTags := none
            , requiredTypes := none }
        , transformations :=
            { summarize := true, combineRelated := true
            , extractPatterns := false, generalizeKnowledge := false } }
      , { sourceLevel := .shortTerm
        , targetLevel := .longTerm
        , conditions :=
            { minImportance := MemoryImportance.Medium
            , minAccessCount := 5
            , minAge := 12 * 60 * 60 * 1000
            , requiredTags := none
            , requiredTypes := none }
        , transformations :=
            { summarize := true, combineRelated := true
            , extractPatterns := true, generalizeKnowledge := true } } ] }

/-- JS number division where the result is consumed as a finite value:
a zero denominator yields NaN (0/0) or a signed infinity, i.e. no
finite number; both are embedded as `none`. -/
def jsDiv (a b : Rat) : Option Rat :=
  if b = 0 then none else some (a / b)

/-- One step of the JS `new Set(...)` insertion-order deduplication. -/
def insertUniq (acc : List String) (t : String) : List String :=
  if t ∈ acc then acc else acc ++ [t]

/-- `[...new Set(l)]`: deduplication keeping first occurrences in order. -/
def jsSetOf (l : List String) : List String :=
  l.foldl insertUniq []

/-- `Math.max(...l)` over a list of importance values; the empty case
(JS -Infinity) is never reached because the source dereferences
`memories[0]` in the same expression. -/
def importanceMax : List Nat → Nat
  | [] => 0
  | x :: xs => xs.foldl max x

/-- `Date.toISOString()` used only as a document-id / metadata component;
embedded as the (injective) decimal rendering of the epoch value. -/
def dateToIso (t : Int) : String := toString t

/-- The metadata object stored with each document by
`ChromaProvider.addDocumentation` (chroma.ts); the manager's
`storeMemory` additionally passes a `tags` array, which chroma stores
verbatim.  Note there is no `similarity` or `context` key. -/
structure ChromaDocMeta where
  projectId : String
  type : String
  title : String
  timestamp : String
  tags : List String
deriving DecidableEq, Repr

/-- A document in the chromadb `documentation` collection.  The content
is `JSON.stringify(memory)`; the round-trip with `JSON.parse` is
modelled as the identity, so the parsed Memory value is stored. -/
structure ChromaDoc where
  id : String
  content : Memory
  metadata : ChromaDocMeta
deriving DecidableEq, Repr

/-- The chromadb state reachable from the memory manager: it only ever
touches the `documentation` collection (storeMemory goes through
`addDocumentation`, all reads through `findRelevantDocumentation`). -/
structure ChromaState where
  documentation : List ChromaDoc
deriving DecidableEq, Repr

/-- External collaborators, abstracted as oracles:
`rank` is chromadb's similarity ranking of the documents that pass the
structured `where` filter (most relevant first); `embedResponse` is the
OpenAI embeddings HTTP call (`none` = non-OK response); `chat` is
`openai.chat` applied to a (system, user) prompt pair; `sqrtFn` is the
JS runtime's `Math.sqrt`. -/
structure Ports where
  rank : String → List ChromaDoc → List ChromaDoc
  embedResponse : String → Option (List Rat)
  chat : String → String → String
  sqrtFn : Rat → Rat

/-- `ChromaProvider.queryDocuments` on the documentation collection:
chromadb applies the structured `where` equality filter, ranks the
matches by relevance to the query text (abstracted by `rank`) and
returns at most `nResults` of them (source default 5). -/
def chromaQueryDocuments (rank : String → List ChromaDoc → List ChromaDoc)
    (st : ChromaState) (query : String) (whereProjectId : String)
    (whereType : Option String) (nResults : Nat) : List ChromaDoc :=
  let whereMatches := st.documentation.filter fun d =>
    d.metadata.projectId == whereProjectId &&
      (match whereType with
       | some t => d.metadata.type == t
       | none => true)
  (rank query whereMatches).take nResults

/-- `ChromaProvider.findRelevantDocumentation` (chroma.ts lines
214-236): builds the `where` filter from projectId and the optional
type and delegates to queryDocuments; an absent nResults defaults to 5
in queryDocuments. -/
def findRelevantDocumentation (rank : String → List ChromaDoc → List ChromaDoc)
    (st : ChromaState) (query : String) (projectId : String)
    (type? : Option String) (nResults? : Option Nat) : List ChromaDoc :=
  chromaQueryDocuments rank st query projectId type? (nResults?.getD 5)

/-- `ChromaProvider.addDocumentation` (chroma.ts lines 196-212): adds a
document with id `projectId-type-timestamp` to the documentation
collection. -/
def addDocumentation (st : ChromaState) (content : Memory)
    (projectId type title timestamp : String) (tags : List String) :
    ChromaState :=
  { st with documentation := st.documentation ++
      [{ id := projectId ++ "-" ++ type ++ "-" ++ timestamp
       , content := content
       , metadata := { projectId := projectId, type := type, title := title
                     , timestamp := timestamp, tags := tags } }] }

/-- The MemoryManager's state: its chroma connection, its config, and
whether the consolidation timer is running. -/
structure MemoryManager where
  chroma : ChromaState
  config : MemoryConfig
  running : Bool
deriving Repr

/-- The MemoryManager constructor (manager.ts lines 63-69): it stores
the providers and config and calls `startConsolidation` (the interval
timer, modelled by the `running` flag).  It performs no validation of
the configuration. -/
def MemoryManager.create (cfg : MemoryConfig) (chroma : ChromaState) :
    MemoryManager :=
  { chroma := chroma, config := cfg, running := true }

/-- `generateEmbeddings` (manager.ts lines 378-398): POSTs to the
embeddings endpoint and throws `Failed to generate embeddings` on a
non-OK response. -/
def generateEmbeddings (p : Ports) (content : String) :
    Except String (List Rat) :=
  match p.embedResponse content with
  | none => .error "Failed to generate embeddings"
  | some v => .ok v

/-- `storeMemory` (manager.ts lines 400-411): persists the serialized
memory via addDocumentation, scoped by `projectId := agentId` and
`type := 'memory'`. -/
def MemoryManager.storeMemory (m : MemoryManager) (memory : Memory) :
    MemoryManager :=
  let chroma := addDocumentation m.chroma memory
    memory.metadata.agentId "memory" ("Memory: " ++ memory.id)
    (dateToIso memory.timestamp)
    (["memory", memoryLevelString memory.level,
      memoryTypeString memory.metadata.type] ++ memory.metadata.tags)
  { m with chroma := chroma }

/-- The client-side filter chain of `queryMemories` (manager.ts lines
117-137).  JS truthiness: a present numeric filter equal to 0
(importance, similarityThreshold) is falsy and imposes no constraint;
a present tags array filters even when empty (`[]` is truthy and
`every` on it is vacuously true). -/
def passesFilters (q : MemoryQuery) (r : MemorySearchResult) : Bool :=
  (match q.level with
   | some l => r.memory.level == l
   | none => true) &&
  (match q.type with
   | some t => r.memory.metadata.type == t
   | none => true) &&
  (match q.importance with
   | some i => i == 0 || decide (i ≤ r.memory.importance)
   | none => true) &&
  (match q.timeRange with
   | some se => !(decide (r.memory.timestamp < se.1) ||
                  decide (se.2 < r.memory.timestamp))
   | none => true) &&
  (match q.tags with
   | some ts => ts.all fun t => r.memory.metadata.tags.contains t
   | none => true) &&
  (match q.similarityThreshold with
   | some t => t == 0 || decide (t ≤ r.similarity)
   | none => true)

/-- `queryMemories` (manager.ts lines 100-139): similarity search in
the store scoped by `query.metadata?.projectId || ''` (via
findRelevantDocumentation with type 'memory' and nResults =
query.limit), then the client-side filters.  The stored document
metadata never contains a `similarity` or `context` key, so
`doc.metadata.similarity || 0` is always 0 and context is absent. -/
def MemoryManager.queryMemories (p : Ports) (m : MemoryManager)
    (q : MemoryQuery) : List MemorySearchResult :=
  let searchResults := findRelevantDocumentation p.rank m.chroma
    (q.content.getD "") ((q.metadata.bind (·.projectId)).getD "")
    (some "memory") q.limit
  (searchResults.map fun d =>
    { memory := d.content, similarity := 0, context := none }).filter
    (passesFilters q)

/-- `getMemory` (manager.ts lines 459-475): semantic search for
`memory:<id>` scoped to `projectId := 'system'`, returning the parsed
first hit or null.  In the model the stored content is already a Memory
value, so the JSON.parse try/catch always succeeds. -/
def MemoryManager.getMemory (p : Ports) (m : MemoryManager) (id : String) :
    Option Memory :=
  match findRelevantDocumentation p.rank m.chroma ("memory:" ++ id)
      "system" (some "memory") none with
  | [] => none
  | d :: _ => some d.content

/-- `getAllMemories` (manager.ts lines 477-495): search for
`type:memory` scoped to `projectId := agentId`; every parsed document
survives the null filter in the model. -/
def MemoryManager.getAllMemories (p : Ports) (m : MemoryManager)
    (agentId : String) : List Memory :=
  (findRelevantDocumentation p.rank m.chroma "type:memory" agentId
    (some "memory") none).map (·.content)

/-- `getMemoryStats` (manager.ts lines 141-183).  The forEach counting
loops are embedded as counting functions; the three rates divide by
possibly-zero list lengths exactly as the source does (`jsDiv`). -/
def MemoryManager.getMemoryStats (p : Ports) (m : MemoryManager)
    (now : Int) (agentId : String) : MemoryStats :=
  let memories := m.getAllMemories p agentId
  let recentMemories := memories.filter fun mem =>
    now - mem.timestamp < 24 * 60 * 60 * 1000
  let consolidatedMemories := recentMemories.filter fun mem =>
    mem.level == MemoryLevel.longTerm
  { totalMemories := memories.length
  , byLevel := fun l => (memories.filter fun mem => mem.level == l).length
  , byType := fun t =>
      (memories.filter fun mem => mem.metadata.type == t).length
  , byImportance := fun i =>
      (memories.filter fun mem => mem.importance == i).length
  , averageAccessCount := jsDiv
      ((memories.foldl (fun s mem => s + mem.accessCount) 0 : Nat) : Rat)
      ((memories.length : Nat) : Rat)
  , consolidationRate := jsDiv (consolidatedMemories.length : Rat)
      (recentMemories.length : Rat)
  , retentionRate := jsDiv
      ((memories.filter fun mem => 1 < mem.accessCount).length : Rat)
      (memories.length : Rat) }

/-- The dot product inside `calculateCosineSimilarity` (manager.ts line
372); matches the source for the equal-length vectors produced by a
single embedding model. -/
def dotProduct (a b : List Rat) : Rat :=
  (a.zip b).foldl (fun s q => s + q.1 * q.2) 0

/-- `a.reduce((sum, val) => sum + val * val, 0)`: the squared magnitude
under the square root in manager.ts lines 373-374. -/
def sumOfSquares (a : List Rat) : Rat :=
  a.foldl (fun s v => s + v * v) 0

/-- The comparison `calculateCosineSimilarity(a, b) >= threshold`
(manager.ts lines 364-365 and 371-376).  `sq` abstracts the JS
runtime's Math.sqrt.  When the product of magnitudes is 0, the source's
IEEE division yields NaN (dot = 0, comparison false) or a signed
infinity (comparison true exactly for a positive dot); that case is
spelled out explicitly since Rat has no non-finite values. -/
def cosineSimilarityAtLeast (sq : Rat → Rat) (a b : List Rat)
    (threshold : Rat) : Bool :=
  let magnitudeA := sq (sumOfSquares a)
  let magnitudeB := sq (sumOfSquares b)
  if magnitudeA * magnitudeB == 0 then decide (0 < dotProduct a b)
  else decide (threshold ≤ dotProduct a b / (magnitudeA * magnitudeB))

/-- `areMemoriesRelated` (manager.ts lines 353-369).  JS truthiness:
the first check `a.metadata.taskId && a.metadata.taskId ===
b.metadata.taskId` treats an empty-string taskId as absent. -/
def areMemoriesRelated (sq : Rat → Rat) (threshold : Rat)
    (a b : Memory) : Bool :=
  let sameTask : Bool :=
    match a.metadata.taskId with
    | some t => !(t == "") && (b.metadata.taskId == some t)
    | none => false
  let inRelated : Bool := a.metadata.relatedMemories.contains b.id
  let commonTags :=
    a.metadata.tags.filter fun tag => b.metadata.tags.contains tag
  let tagOverlap : Bool := decide (2 ≤ commonTags.length)
  let simOk : Bool :=
    match a.embeddings, b.embeddings with
    | some ea, some eb => cosineSimilarityAtLeast sq ea eb threshold
    | _, _ => false
  sameTask || inRelated || tagOverlap || simOk

/-- The inner loop of `groupRelatedMemories` (manager.ts lines
244-253): scan the whole candidate list, adding every not-yet-used
memory related to the group's founder; returns the added memories (in
scan order) and the updated used set (modelled as a list of ids). -/
def collectRelated (rel : Memory → Memory → Bool) (founder : Memory) :
    List Memory → List String → List Memory × List String
  | [], used => ([], used)
  | other :: rest, used =>
    if other.id ∈ used then collectRelated rel founder rest used
    else if rel founder other then
      let next := collectRelated rel founder rest (other.id :: used)
      (other :: next.1, next.2)
    else collectRelated rel founder rest used

/-- The outer loop of `groupRelatedMemories` (manager.ts lines
238-256): each not-yet-used memory founds a new group and pulls in the
related not-yet-used memories from the whole list. -/
def groupLoop (rel : Memory → Memory → Bool) (all : List Memory) :
    List Memory → List String → List (List Memory)
  | [], _ => []
  | m :: rest, used =>
    if m.id ∈ used then groupLoop rel all rest used
    else
      let collected := collectRelated rel m all (m.id :: used)
      (m :: collected.1) :: groupLoop rel all rest collected.2

/-- `groupRelatedMemories` (manager.ts lines 234-259). -/
def groupRelatedMemories (sq : Rat → Rat) (threshold : Rat)
    (memories : List Memory) : List (List Memory) :=
  groupLoop (areMemoriesRelated sq threshold) memories memories []

/-- The system prompt of `summarizeMemories` (manager.ts line 313). -/
def summarizePrompt : String :=
  "Summarize the following memories, preserving key information and insights:"

/-- The system prompt of `extractPatterns` (manager.ts line 328). -/
def patternsPrompt : String :=
  "Identify recurring patterns and common themes in these memories:"

/-- The system prompt of `generalizeKnowledge` (manager.ts line 343). -/
def generalizePrompt : String :=
  "Extract general principles and reusable knowledge from these experiences:"

/-- `memories.map(m => m.content).join('\n\n')` shared by the three
summarization helpers. -/
def joinContents (memories : List Memory) : String :=
  String.intercalate "\n\n" (memories.map (·.content))

/-- `summarizeMemories` (manager.ts lines 308-321): one chat call. -/
def summarizeMemories (p : Ports) (memories : List Memory) : String :=
  p.chat summarizePrompt (joinContents memories)

/-- `extractPatterns` (manager.ts lines 323-336). -/
def extractPatterns (p : Ports) (memories : List Memory) : String :=
  p.chat patternsPrompt (joinContents memories)

/-- `generalizeKnowledge` (manager.ts lines 338-351). -/
def generalizeKnowledge (p : Ports) (memories : List Memory) : String :=
  p.chat generalizePrompt (joinContents memories)

/-- `applyConsolidationRule` (manager.ts lines 261-306).  The content
is assembled from the enabled transformations, then the new Memory is
built; `memories[0]` on an empty group is a JS TypeError, and the
embedding call can throw. -/
def applyConsolidationRule (p : Ports) (memories : List Memory)
    (rule : ConsolidationRule) (newId : String) (now : Int) :
    Except String ConsolidationResult :=
  let c1 := if rule.transformations.summarize
    then summarizeMemories p memories else ""
  let c2 := if rule.transformations.extractPatterns
    then c1 ++ "\n\nPatterns identified:\n" ++ extractPatterns p memories
    else c1
  let consolidatedContent := if rule.transformations.generalizeKnowledge
    then c2 ++ "\n\nGeneralized knowledge:\n" ++ generalizeKnowledge p memories
    else c2
  match memories with
  | [] => .error "TypeError: memories[0] is undefined"
  | first :: _ =>
    match generateEmbeddings p consolidatedContent with
    | .error e => .error e
    | .ok emb =>
      .ok { sourceMemories := memories.map (·.id)
          , newMemory :=
              { id := newId
              , content := consolidatedContent
              , level := rule.targetLevel
              , importance := importanceMax (memories.map (·.importance))
              , timestamp := now
              , lastAccessed := now
              , accessCount := 1
              , metadata :=
                  { source := "consolidation"
                  , type := MemoryType.knowledge
                  , context := none
                  , tags := jsSetOf (memories.flatMap (·.metadata.tags))
                  , relatedMemories := memories.map (·.id)
                  , agentId := first.metadata.agentId
                  , taskId := none
                  , projectId := first.metadata.projectId }
              , embeddings := some emb }
          , level := rule.targetLevel
          , summary := consolidatedContent }

/-- `storeConsolidatedMemory` (manager.ts lines 413-425): store the new
memory, then for each source id look it up with `getMemory`, push the
`consolidated` tag and store it again; a null lookup silently skips the
source. -/
def MemoryManager.storeConsolidatedMemory (p : Ports) (m : MemoryManager)
    (result : ConsolidationResult) : MemoryManager :=
  let m1 := m.storeMemory result.newMemory
  result.sourceMemories.foldl
    (fun acc id =>
      match acc.getMemory p id with
      | none => acc
      | some mem => acc.storeMemory
          { mem with metadata :=
              { mem.metadata with tags := mem.metadata.tags ++ ["consolidated"] } })
    m1

/-- `consolidateMemory` (manager.ts lines 448-457): find the first rule
whose sourceLevel matches the memory's level and push the singleton
group through applyConsolidationRule. -/
def MemoryManager.consolidateMemory (p : Ports) (m : MemoryManager)
    (memory : Memory) (newId : String) (now : Int) :
    Except String MemoryManager :=
  match m.config.consolidationRules.find?
      (fun r => r.sourceLevel == memory.level) with
  | none => .ok m
  | some rule =>
    match applyConsolidationRule p [memory] rule newId now with
    | .error e => .error e
    | .ok result => .ok (m.storeConsolidatedMemory p result)

/-- `enforceCapacityLimits` (manager.ts lines 427-446).  On a
WorkingMemory add it queries `{level, metadata: {agentId}}` (note: that
query scopes the underlying search to `projectId = ''`), sorts
ascending by timestamp (JS sort is stable; mergeSort) and consolidates
the `count - max` oldest.  `supply` provides the uuid and Date() values
consumed by the n-th forced consolidation. -/
def MemoryManager.enforceCapacityLimits (p : Ports) (m : MemoryManager)
    (supply : Nat → String × Int) (level : MemoryLevel)
    (agentId : String) : Except String MemoryManager :=
  if level == MemoryLevel.workingMemory then
    let memories := m.queryMemories p
      { baseQuery with
        level := some MemoryLevel.workingMemory,
        metadata := some { agentId := some agentId, projectId := none } }
    if m.config.maxWorkingMemories < memories.length then
      let oldestMemories :=
        (List.mergeSort (memories.map (·.memory))
          (fun a b => a.timestamp ≤ b.timestamp)).take
          (memories.length - m.config.maxWorkingMemories)
      oldestMemories.enum.foldlM
        (fun acc q =>
          MemoryManager.consolidateMemory p acc q.2 (supply q.1).1
            (supply q.1).2)
        m
    else .ok m
  else .ok m

/-- `addMemory` (manager.ts lines 71-98): build the Memory with
accessCount 1, generate embeddings (a failure there propagates to the
caller), store it, then enforce capacity limits for
`(level, metadata.agentId)`; returns the created Memory.  `newId` and
`now` are the uuidv4() and new Date() values of this call, `supply`
feeds any forced consolidations. -/
def MemoryManager.addMemory (p : Ports) (m : MemoryManager)
    (supply : Nat → String × Int) (newId : String) (now : Int)
    (content : String) (metadata : MemoryMetadata) (level : MemoryLevel)
    (importance : MemoryImportance) :
    Except String (Memory × MemoryManager) :=
  match generateEmbeddings p content with
  | .error e => .error e
  | .ok emb =>
    let memory : Memory :=
      { id := newId, content := content, level := level
      , importance := importance, timestamp := now, lastAccessed := now
      , accessCount := 1, metadata := metadata, embeddings := some emb }
    match (m.storeMemory memory).enforceCapacityLimits p supply level
        metadata.agentId with
    | .error e => .error e
    | .ok m2 => .ok (memory, m2)

/-- `getMemoriesForConsolidation` (manager.ts lines 216-232): a
queryMemories call with the rule's level, minimum importance, required
tags and the time range `(now - minAge, now)`, then the access-count
filter. -/
def MemoryManager.getMemoriesForConsolidation (p : Ports)
    (m : MemoryManager) (now : Int) (rule : ConsolidationRule) :
    List Memory :=
  let minTimestamp := now - rule.conditions.minAge
  let memories := m.queryMemories p
    { baseQuery with
      level := some rule.sourceLevel,
      importance := some rule.conditions.minImportance,
      timeRange := some (minTimestamp, now),
      tags := rule.conditions.requiredTags }
  (memories.map (·.memory)).filter fun mem =>
    rule.conditions.minAccessCount ≤ mem.accessCount

/-! Concrete instantiations used to evaluate the embedded operations:
an order-preserving store ranking and fixed port responses. -/

/-- A chromadb ranking oracle that returns the where-filtered documents
in insertion order (a legitimate relevance order). -/
def idRank : String → List ChromaDoc → List ChromaDoc := fun _ l => l

/-- Ports whose embedding endpoint succeeds with the vector [1] and
whose chat endpoint returns "S". -/
def portsOk : Ports :=
  { rank := idRank, embedResponse := fun _ => some [1]
  , chat := fun _ _ => "S", sqrtFn := fun _ => 0 }

/-- Ports whose embedding endpoint returns a non-OK response. -/
def portsFail : Ports :=
  { rank := idRank, embedResponse := fun _ => none
  , chat := fun _ _ => "S", sqrtFn := fun _ => 0 }

/-- Metadata for a test memory. -/
def testMetadata (agent : String) (tags : List String)
    (taskId : Option String) : MemoryMetadata :=
  { source := "user", type := .observation, context := none, tags := tags
  , relatedMemories := [], agentId := agent, taskId := taskId
  , projectId := "p1" }

/-- A test memory with the given id, owner, timestamp, level,
importance, access count, tags and task id. -/
def testMemory (id : String) (agent : String) (ts : Int)
    (lvl : MemoryLevel) (imp : Nat) (ac : Nat) (tags : List String)
    (task : Option String) : Memory :=
  { id := id, content := "c", level := lvl, importance := imp
  , timestamp := ts, lastAccessed := ts, accessCount := ac
  , metadata := testMetadata agent tags task, embeddings := none }

/-- The document `storeMemory` writes for a given memory (used to build
pre-populated store states). -/
def storedDoc (mem : Memory) : ChromaDoc :=
  { id := mem.metadata.agentId ++ "-memory-" ++ dateToIso mem.timestamp
  , content := mem
  , metadata :=
      { projectId := mem.metadata.agentId, type := "memory"
      , title := "Memory: " ++ mem.id, timestamp := dateToIso mem.timestamp
      , tags := ["memory", memoryLevelString mem.level,
                 memoryTypeString mem.metadata.type] ++ mem.metadata.tags } }

/-- The WorkingMemory to ShortTerm rule of the default config
(manager.ts lines 30-42). -/
def wmRule : ConsolidationRule :=
  { sourceLevel := .workingMemory
  , targetLevel := .shortTerm
  , conditions :=
      { minImportance := MemoryImportance.Low, minAccessCount := 2
      , minAge := 5 * 60 * 1000, requiredTags := none
      , requiredTypes := none }
  , transformations :=
      { summarize := true, combineRelated := true
      , extractPatterns := false, generalizeKnowledge := false } }

/-- A WorkingMemory memory 10 minutes old at the reference instant
1000000000: it satisfies every eligibility condition of `wmRule`
(importance 2 at least Low, accessCount 3 ms at least 2, age 600000 ms at
least minAge 300000 ms). -/
def memOld : Memory := testMemory "old" "" (1000000000 - 600000) .workingMemory 2 3 [] none

/-- A WorkingMemory memory only 1 second old at the reference instant:
its age is far below `wmRule`'s minAge. -/
def memYoung : Memory := testMemory "young" "" (1000000000 - 1000) .workingMemory 2 3 [] none

/-- A manager whose store holds exactly `memOld` and `memYoung` (owner
"" so that the consolidation query's projectId scope matches). -/
def consolidationMgr : MemoryManager :=
  { chroma := { documentation := [storedDoc memOld, storedDoc memYoung] }
  , config := defaultConfig, running := true }

/-- Run a list of (uuid, Date, content) triples through `addMemory` at
WorkingMemory level and importance Low (the source defaults), threading
the manager state. -/
def runAdds (p : Ports) (supply : Nat → String × Int)
    (md : MemoryMetadata) :
    List (String × Int × String) → MemoryManager →
      Except String MemoryManager
  | [], m => .ok m
  | (id, t, c) :: rest, m =>
    match MemoryManager.addMemory p m supply id t c md
        MemoryLevel.workingMemory MemoryImportance.Low with
    | .error e => .error e
    | .ok q => runAdds p supply md rest q.2

/-- Eleven addMemory inputs with distinct uuids and increasing Date
values. -/
def adds11 : List (String × Int × String) :=
  (List.range 11).map fun i =>
    ("m" ++ toString i, ((i + 1) * 1000 : Int), "c" ++ toString i)

/-- uuid/Date supply for forced consolidations (never consumed in the
scenarios below). -/
def supply0 : Nat → String × Int := fun i => ("x" ++ toString i, 999999)

/-- Metadata with owner agent "a1". -/
def metaA1 : MemoryMetadata := testMetadata "a1" [] none

/-- Number of stored memories at WorkingMemory level owned by "a1". -/
def wmCount (m : MemoryManager) : Nat :=
  (m.chroma.documentation.filter fun d =>
    d.content.level == MemoryLevel.workingMemory &&
      d.content.metadata.agentId == "a1").length

/-- Number of stored memories at ShortTerm level. -/
def stCount (m : MemoryManager) : Nat :=
  (m.chroma.documentation.filter fun d =>
    d.content.level == MemoryLevel.shortTerm).length

/-- A source memory owned by "a1", stored in the store state below. -/
def srcMem : Memory := testMemory "s1" "a1" 500 .workingMemory 2 3 ["t"] none

/-- The already-built consolidated memory replacing `srcMem`. -/
def newMem4 : Memory := testMemory "n4" "a1" 900 .shortTerm 2 1 ["t"] none

/-- A manager whose store holds exactly `srcMem`. -/
def mgr4 : MemoryManager :=
  { chroma := { documentation := [storedDoc srcMem] }
  , config := defaultConfig, running := true }

/-- The ConsolidationResult whose single source is `srcMem`. -/
def result4 : ConsolidationResult :=
  { sourceMemories := ["s1"], newMemory := newMem4
  , level := .shortTerm, summary := "S" }

/-- A manager over an empty store. -/
def emptyMgr : MemoryManager :=
  MemoryManager.create defaultConfig { documentation := [] }

/-- Replace the importance of a search result's memory, leaving every
other field unchanged. -/
def setResultImportance (r : MemorySearchResult) (v : Nat) :
    MemorySearchResult :=
  { r with memory := { r.memory with importance := v } }

/-- A stored memory with importance High owned by "" (so the query
scope matches), used to exercise the importance filter. -/
def mem6 : Memory := testMemory "q1" "" 100 .workingMemory 3 1 [] none

/-- A manager whose store holds exactly `mem6`. -/
def mgr6 : MemoryManager :=
  { chroma := { documentation := [storedDoc mem6] }
  , config := defaultConfig, running := true }

/-- A query asking for importance at least Medium. -/
def q6 : MemoryQuery := { baseQuery with importance := some MemoryImportance.Medium }

/-- Three memories with distinct ids: the first two share task "T1",
the third is unrelated. -/
def ms7 : List Memory :=
  [ testMemory "a" "a1" 0 .workingMemory 1 1 [] (some "T1")
  , testMemory "b" "a1" 0 .workingMemory 1 1 [] (some "T1")
  , testMemory "z" "a1" 5 .workingMemory 1 1 [] none ]

/-- Memory "a" with task id "T1". -/
def aT : Memory := testMemory "a" "a1" 0 .workingMemory 1 1 [] (some "T1")

/-- Memory "b" with task id "T1". -/
def bT : Memory := testMemory "b" "a1" 0 .workingMemory 1 1 [] (some "T1")

/-- Memory "a" whose task id is the empty string (non-null but falsy). -/
def aE : Memory := testMemory "a" "a1" 0 .workingMemory 1 1 [] (some "")

/-- Memory "b" whose task id is the empty string. -/
def bE : Memory := testMemory "b" "a1" 0 .workingMemory 1 1 [] (some "")

/-- A configuration with `maxWorkingMemories = 0` (the claimed-invalid
value). -/
def cfg9 : MemoryConfig := { defaultConfig with maxWorkingMemories := 0 }

/-- Group member "a": importance Medium, tag x, owner "A". -/
def mA : Memory :=
  { testMemory "a" "A" 0 .workingMemory 2 1 ["x"] none with
    metadata := { testMetadata "A" ["x"] none with projectId := "P" } }

/-- Group member "b": importance High, tags x and y, owner "B". -/
def mB : Memory :=
  { testMemory "b" "B" 0 .workingMemory 3 1 ["x", "y"] none with
    metadata := { testMetadata "B" ["x", "y"] none with projectId := "Q" } }

/-- The ConsolidationResult `applyConsolidationRule portsOk [mA, mB]
wmRule "n1" 100` evaluates to. -/
def res10 : ConsolidationResult :=
  { sourceMemories := ["a", "b"]
  , newMemory :=
      { id := "n1", content := "S", level := .shortTerm, importance := 3
      , timestamp := 100, lastAccessed := 100, accessCount := 1
      , metadata :=
          { source := "consolidation", type := .knowledge, context := none
          , tags := ["x", "y"], relatedMemories := ["a", "b"]
          , agentId := "A", taskId := none, projectId := "P" }
      , embeddings := some [1] }
  , level := .shortTerm, summary := "S" }

/-- C1: the claim says a consolidation rule selects memories whose age
is at least `minAge`.  The code computes `minTimestamp = now - minAge`
and uses it as the START of the query's time range, so it keeps exactly
the memories YOUNGER than minAge and drops the old ones: at the
reference instant, the fully eligible 10-minute-old memory is excluded
while the 1-second-old memory (age below minAge) is the one selected. -/
theorem getMemoriesForConsolidation_age_inverted :
    MemoryManager.getMemoriesForConsolidation portsOk consolidationMgr
        1000000000 wmRule = [memYoung] ∧
    wmRule.conditions.minAge ≤ 1000000000 - memOld.timestamp ∧
    memOld.level = wmRule.sourceLevel ∧
    wmRule.conditions.minImportance ≤ memOld.importance ∧
    wmRule.conditions.minAccessCount ≤ memOld.accessCount ∧
    wmRule.conditions.requiredTags = none ∧
    1000000000 - memYoung.timestamp < wmRule.conditions.minAge := by
  refine ⟨by decide, by decide, by decide, by decide, by decide, rfl, by decide⟩

/-- C2 counterexample: when the embeddings request returns a non-OK
response, `addMemory` does not store-and-return — it propagates the
`Failed to generate embeddings` error to the caller. -/
theorem addMemory_embed_failure_cex :
    MemoryManager.addMemory portsFail emptyMgr supply0 "id1" 0 "hello"
        metaA1 MemoryLevel.workingMemory MemoryImportance.Low =
      Except.error "Failed to generate embeddings" := by
  rfl

/-- C2 amended: for every state and input, an embedding-port failure
makes `addMemory` itself fail with the propagated error (the memory is
not persisted and no Memory is returned). -/
theorem addMemory_embed_failure_propagates (p : Ports) (m : MemoryManager)
    (supply : Nat → String × Int) (newId : String) (now : Int)
    (content : String) (md : MemoryMetadata) (level : MemoryLevel)
    (imp : MemoryImportance) (h : p.embedResponse content = none) :
    MemoryManager.addMemory p m supply newId now content md level imp =
      Except.error "Failed to generate embeddings" := by
  simp [MemoryManager.addMemory, generateEmbeddings, h]

/-- C2 witness: the amended theorem applied at a concrete failing port. -/
theorem addMemory_embed_failure_propagates_witness :
    portsFail.embedResponse "x" = none ∧
    MemoryManager.addMemory portsFail emptyMgr supply0 "w2" 7 "x" metaA1
        MemoryLevel.shortTerm MemoryImportance.Medium =
      Except.error "Failed to generate embeddings" :=
  ⟨rfl, addMemory_embed_failure_propagates portsFail emptyMgr supply0 "w2"
    7 "x" metaA1 MemoryLevel.shortTerm MemoryImportance.Medium rfl⟩

/-- C3: the claimed capacity scenario fails on the code.  After eleven
`addMemory` calls at WorkingMemory for owner "a1" with
maxWorkingMemories = 10 (default config, which has the
WorkingMemory-to-ShortTerm rule), all eleven memories are still at
WorkingMemory and no ShortTerm memory exists: the capacity query is
scoped to `projectId = ''` while memories are stored under
`projectId = agentId`, so enforcement never sees them — and even a
forced consolidation would not remove or demote a source. -/
theorem addMemory_capacity_scenario_bug :
    (runAdds portsOk supply0 metaA1 adds11
        (MemoryManager.create defaultConfig { documentation := [] })).map
        wmCount = Except.ok 11 ∧
    (runAdds portsOk supply0 metaA1 adds11
        (MemoryManager.create defaultConfig { documentation := [] })).map
        stCount = Except.ok 0 := by
  exact ⟨rfl, rfl⟩

/-- C4: after `storeConsolidatedMemory` persists a result whose single
source is the stored memory "s1" owned by "a1", the source's stored
tag set is unchanged (no `consolidated` tag): `getMemory` searches with
scope `projectId = 'system'`, finds nothing, and the tag update is
silently skipped; `getMemory "s1"` also returns null afterwards, so the
source is not retrievable by id either. -/
theorem storeConsolidatedMemory_sources_untagged :
    ((MemoryManager.storeConsolidatedMemory portsOk mgr4
        result4).chroma.documentation.filter fun d =>
          d.content.id == "s1") = [storedDoc srcMem] ∧
    srcMem.metadata.tags = ["t"] ∧
    MemoryManager.getMemory portsOk
      (MemoryManager.storeConsolidatedMemory portsOk mgr4 result4) "s1" =
      none := by
  exact ⟨rfl, rfl, rfl⟩

/-- C5 counterexample: `getStats` for an owner with zero memories does
return totalMemories = 0 without throwing, but the consolidation rate
is the JS value 0/0 = NaN (modelled `none`), not 0 as claimed. -/
theorem getMemoryStats_nan_cex :
    (MemoryManager.getMemoryStats portsOk emptyMgr 0 "a1").totalMemories
        = 0 ∧
    (MemoryManager.getMemoryStats portsOk emptyMgr 0 "a1").consolidationRate
        = none ∧
    (MemoryManager.getMemoryStats portsOk emptyMgr 0 "a1").consolidationRate
        ≠ some 0 := by
  refine ⟨rfl, rfl, by decide⟩

/-- C5 amended: whenever the store returns no memories for the owner,
`getMemoryStats` returns totalMemories = 0 and (being a total function)
does not throw, and the consolidation rate — like the average access
count and retention rate — is the non-finite JS division result 0/0
(NaN, modelled `none`), not 0. -/
theorem getMemoryStats_empty_owner (p : Ports) (m : MemoryManager)
    (now : Int) (agentId : String)
    (h : MemoryManager.getAllMemories p m agentId = []) :
    (MemoryManager.getMemoryStats p m now agentId).totalMemories = 0 ∧
    (MemoryManager.getMemoryStats p m now agentId).consolidationRate
        = none ∧
    (MemoryManager.getMemoryStats p m now agentId).averageAccessCount
        = none := by
  simp [MemoryManager.getMemoryStats, h, jsDiv]

/-- C5 witness: the amended theorem applied to the empty store. -/
theorem getMemoryStats_empty_owner_witness :
    MemoryManager.getAllMemories portsOk emptyMgr "zz" = [] ∧
    (MemoryManager.getMemoryStats portsOk emptyMgr 5 "zz").totalMemories
        = 0 :=
  ⟨rfl, (getMemoryStats_empty_owner portsOk emptyMgr 5 "zz" rfl).1⟩

/-- C9 counterexample: constructing the engine with
maxWorkingMemories = 0 does not fail fast — the constructor performs no
validation, the engine comes up running with that config, and its
public operations work (an addMemory under the invalid config
succeeds). -/
theorem create_no_validation_cex :
    (MemoryManager.create cfg9 { documentation := [] }).running = true ∧
    (MemoryManager.create cfg9
        { documentation := [] }).config.maxWorkingMemories = 0 ∧
    (MemoryManager.addMemory portsOk
        (MemoryManager.create cfg9 { documentation := [] }) supply0 "w1"
        10 "c" metaA1 MemoryLevel.workingMemory
        MemoryImportance.Low).isOk = true := by
  exact ⟨rfl, rfl, rfl⟩

/-- C9 amended: construction accepts any configuration unchanged —
there is no ConfigError path; the engine starts running with exactly
the supplied config (including maxWorkingMemories at or below 0). -/
theorem create_accepts_any_config (cfg : MemoryConfig)
    (chroma : ChromaState) :
    (MemoryManager.create cfg chroma).running = true ∧
    (MemoryManager.create cfg chroma).config = cfg ∧
    (MemoryManager.create cfg chroma).chroma = chroma :=
  ⟨rfl, rfl, rfl⟩

/-- Two distinct members force a list length of at least 2. -/
theorem two_mem_le_length {α : Type} {l : List α} {x y : α}
    (hxy : x ≠ y) (hx : x ∈ l) (hy : y ∈ l) : 2 ≤ l.length := by
  match l with
  | [] => cases hx
  | [a] =>
    rcases List.mem_singleton.mp hx with rfl
    rcases List.mem_singleton.mp hy with rfl
    exact absurd rfl hxy
  | a :: b :: rest => simp [List.length]

/-- Helper: a shared truthy (non-empty) taskId makes two memories
related (the first disjunct of areMemoriesRelated). -/
theorem areMemoriesRelated_of_sameTask (sq : Rat → Rat) (thr : Rat)
    (a b : Memory) (t : String) (ht : t ≠ "")
    (hta : a.metadata.taskId = some t)
    (htb : b.metadata.taskId = some t) :
    areMemoriesRelated sq thr a b = true := by
  simp [areMemoriesRelated, hta, htb, ht]

/-- C6: with an importance filter (a nonzero enum value), every result
`queryMemories` returns has importance at least the requested minimum —
the similarity ranking cannot override it; without an importance
filter the client-side filter chain is insensitive to importance; and
among candidates meeting the minimum, importance draws no further
distinction. -/
theorem queryMemories_importance_filter :
    (∀ (p : Ports) (m : MemoryManager) (q : MemoryQuery) (imp : Nat),
        q.importance = some imp → 0 < imp →
        ∀ r ∈ MemoryManager.queryMemories p m q,
          imp ≤ r.memory.importance) ∧
    (∀ (q : MemoryQuery) (r : MemorySearchResult) (v : Nat),
        q.importance = none →
        passesFilters q (setResultImportance r v) = passesFilters q r) ∧
    (∀ (q : MemoryQuery) (r : MemorySearchResult) (imp v w : Nat),
        q.importance = some imp → imp ≤ v → imp ≤ w →
        passesFilters q (setResultImportance r v) =
          passesFilters q (setResultImportance r w)) := by
  refine ⟨?_, ?_, ?_⟩
  · intro p m q imp hq himp r hr
    have hf : passesFilters q r = true :=
      (List.mem_filter.mp hr).2
    simp only [passesFilters, hq, Bool.and_eq_true, Bool.or_eq_true,
      beq_iff_eq, decide_eq_true_eq] at hf
    obtain ⟨⟨⟨⟨⟨-, -⟩, h3⟩, -⟩, -⟩, -⟩ := hf
    exact h3.resolve_left (Nat.pos_iff_ne_zero.mp himp)
  · intro q r v hq
    simp [passesFilters, setResultImportance, hq]
  · intro q r imp v w hq hv hw
    simp [passesFilters, setResultImportance, hq, hv, hw]

/-- C6 witness: querying with importance Medium over a store holding a
High-importance memory; the theorem yields the bound for the returned
result. -/
theorem queryMemories_importance_filter_witness :
    q6.importance = some 2 ∧
    (⟨mem6, 0, none⟩ : MemorySearchResult) ∈
      MemoryManager.queryMemories portsOk mgr6 q6 ∧
    2 ≤ (⟨mem6, 0, none⟩ : MemorySearchResult).memory.importance :=
  ⟨rfl, by decide,
    queryMemories_importance_filter.1 portsOk mgr6 q6 2 rfl (by decide)
      ⟨mem6, 0, none⟩ (by decide)⟩

/-- C8 counterexample: two memories sharing the non-null taskId "" (the
empty string, which is falsy in JS), with no tags and no embeddings,
are NOT related and are placed in different groups — contradicting the
claim for the non-null taskId "". -/
theorem sameTaskId_empty_string_cex :
    aE.metadata.taskId = some "" ∧ bE.metadata.taskId = some "" ∧
    aE.metadata.tags = [] ∧ bE.metadata.tags = [] ∧
    aE.embeddings = none ∧ bE.embeddings = none ∧
    areMemoriesRelated (fun _ => 0) (7 / 10) aE bE = false ∧
    groupRelatedMemories (fun _ => 0) (7 / 10) [aE, bE] =
      [[aE], [bE]] := by
  refine ⟨rfl, rfl, rfl, rfl, rfl, rfl, by decide, by decide⟩

/-- C8 amended: a shared NON-EMPTY taskId (JS truthiness: the empty
string counts as absent) makes two memories related, a two-element
candidate list with such a pair becomes a single group, and relatedness
follows from any of the four disjuncts evaluated against the group's
founder: shared non-empty taskId; the founder's relatedMemories
containing the other's id; tag sets sharing at least two distinct tags;
or both having embeddings with cosine similarity at or above the
threshold. -/
theorem areMemoriesRelated_founder_disjuncts :
    (∀ (sq : Rat → Rat) (thr : Rat) (a b : Memory) (t : String),
        t ≠ "" → a.metadata.taskId = some t →
        b.metadata.taskId = some t →
        areMemoriesRelated sq thr a b = true) ∧
    (∀ (sq : Rat → Rat) (thr : Rat) (a b : Memory),
        a.id ≠ b.id →
        (∃ t, t ≠ "" ∧ a.metadata.taskId = some t ∧
          b.metadata.taskId = some t) →
        groupRelatedMemories sq thr [a, b] = [[a, b]]) ∧
    (∀ (sq : Rat → Rat) (thr : Rat) (a b : Memory),
        ((∃ t, t ≠ "" ∧ a.metadata.taskId = some t ∧
            b.metadata.taskId = some t) ∨
         b.id ∈ a.metadata.relatedMemories ∨
         (∃ t₁ t₂, t₁ ≠ t₂ ∧ t₁ ∈ a.metadata.tags ∧
           t₁ ∈ b.metadata.tags ∧ t₂ ∈ a.metadata.tags ∧
           t₂ ∈ b.metadata.tags) ∨
         (∃ ea eb, a.embeddings = some ea ∧ b.embeddings = some eb ∧
           cosineSimilarityAtLeast sq ea eb thr = true)) →
        areMemoriesRelated sq thr a b = true) := by
  refine ⟨?_, ?_, ?_⟩
  · exact fun sq thr a b t ht hta htb =>
      areMemoriesRelated_of_sameTask sq thr a b t ht hta htb
  · intro sq thr a b hne ⟨t, ht, hta, htb⟩
    have hrel : areMemoriesRelated sq thr a b = true :=
      areMemoriesRelated_of_sameTask sq thr a b t ht hta htb
    simp [groupRelatedMemories, groupLoop, collectRelated, hrel, hne.symm]
  · intro sq thr a b h
    rcases h with ⟨t, ht, hta, htb⟩ | hrel |
      ⟨t₁, t₂, hnet, h1a, h1b, h2a, h2b⟩ | ⟨ea, eb, hea, heb, hcos⟩
    · exact areMemoriesRelated_of_sameTask sq thr a b t ht hta htb
    · simp [areMemoriesRelated, hrel]
    · simp [areMemoriesRelated]
      refine Or.inl (Or.inr ?_)
      refine two_mem_le_length hnet ?_ ?_
      · exact List.mem_filter.mpr ⟨h1a, by simp [h1b]⟩
      · exact List.mem_filter.mpr ⟨h2a, by simp [h2b]⟩
    · simp [areMemoriesRelated, hea, heb, hcos]

/-- C8 witness: the amended theorem applied to two memories sharing the
non-empty taskId "T1" with no shared tags and no embeddings. -/
theorem areMemoriesRelated_founder_disjuncts_witness :
    aT.id ≠ bT.id ∧
    groupRelatedMemories (fun _ => 0) (7 / 10) [aT, bT] = [[aT, bT]] :=
  ⟨by decide, areMemoriesRelated_founder_disjuncts.2.1 (fun _ => 0)
    (7 / 10) aT bT (by decide) ⟨"T1", by decide, rfl, rfl⟩⟩

/-- The seed is a lower bound of a max-fold. -/
theorem le_foldl_max (xs : List Nat) (x : Nat) : x ≤ xs.foldl max x := by
  induction xs generalizing x with
  | nil => exact Nat.le_refl x
  | cons a as ih => exact Nat.le_trans (Nat.le_max_left x a) (ih (max x a))

/-- Every member is a lower bound of a max-fold. -/
theorem foldl_max_le_of_mem (xs : List Nat) (x y : Nat) (hy : y ∈ xs) :
    y ≤ xs.foldl max x := by
  induction xs generalizing x with
  | nil => cases hy
  | cons a as ih =>
    rcases List.mem_cons.mp hy with rfl | h
    · exact Nat.le_trans (Nat.le_max_right x y) (le_foldl_max as (max x y))
    · exact ih (max x a) h

/-- A max-fold evaluates to its seed or to a member. -/
theorem foldl_max_mem (xs : List Nat) (x : Nat) :
    xs.foldl max x = x ∨ xs.foldl max x ∈ xs := by
  induction xs generalizing x with
  | nil => exact Or.inl rfl
  | cons a as ih =>
    rcases ih (max x a) with h | h
    · rcases max_choice x a with hx | hx
      · exact Or.inl (by rw [List.foldl_cons, h, hx])
      · exact Or.inr (by rw [List.foldl_cons, h, hx]; exact List.mem_cons_self a as)
    · exact Or.inr (List.mem_cons_of_mem a h)

/-- `importanceMax` of a nonempty list is one of its members. -/
theorem importanceMax_mem (x : Nat) (xs : List Nat) :
    importanceMax (x :: xs) ∈ x :: xs := by
  rcases foldl_max_mem xs x with h | h
  · rw [importanceMax, h]; exact List.mem_cons_self x xs
  · exact List.mem_cons_of_mem x h

/-- `importanceMax` of a nonempty list bounds every member. -/
theorem le_importanceMax (x : Nat) (xs : List Nat) :
    ∀ y ∈ x :: xs, y ≤ importanceMax (x :: xs) := by
  intro y hy
  rcases List.mem_cons.mp hy with rfl | h
  · exact le_foldl_max xs y
  · exact foldl_max_le_of_mem xs x y h

/-- Membership in one insertion step of the JS Set deduplication. -/
theorem mem_insertUniq (acc : List String) (a t : String) :
    t ∈ insertUniq acc a ↔ t ∈ acc ∨ t = a := by
  unfold insertUniq
  split
  · constructor
    · exact Or.inl
    · rintro (h | rfl)
      · exact h
      · assumption
  · simp

/-- One insertion step preserves Nodup. -/
theorem nodup_insertUniq (acc : List String) (a : String)
    (h : acc.Nodup) : (insertUniq acc a).Nodup := by
  unfold insertUniq
  split
  · exact h
  · simp_all [List.nodup_append]

/-- Membership in the JS Set deduplication fold. -/
theorem mem_foldl_insertUniq (l : List String) :
    ∀ (acc : List String) (t : String),
      t ∈ l.foldl insertUniq acc ↔ t ∈ acc ∨ t ∈ l := by
  induction l with
  | nil => simp
  | cons a as ih =>
    intro acc t
    rw [List.foldl_cons, ih, mem_insertUniq]
    simp [or_assoc]

/-- The JS Set deduplication fold preserves Nodup. -/
theorem nodup_foldl_insertUniq (l : List String) :
    ∀ acc : List String, acc.Nodup → (l.foldl insertUniq acc).Nodup := by
  induction l with
  | nil => exact fun acc h => h
  | cons a as ih =>
    intro acc h
    exact ih (insertUniq acc a) (nodup_insertUniq acc a h)

/-- `[...new Set(l)]` has exactly the members of `l`. -/
theorem mem_jsSetOf (l : List String) (t : String) :
    t ∈ jsSetOf l ↔ t ∈ l := by
  rw [jsSetOf, mem_foldl_insertUniq]
  simp

/-- `[...new Set(l)]` has no duplicates. -/
theorem nodup_jsSetOf (l : List String) : (jsSetOf l).Nodup :=
  nodup_foldl_insertUniq l [] List.nodup_nil

/-- C10: for a nonempty group, the consolidated memory takes agentId
and projectId from the group's first member, has source
'consolidation', type Knowledge, accessCount 1, importance equal to the
group's maximum importance, tags equal to the deduplicated union of the
group's tags, and relatedMemories equal to the ids of all members. -/
theorem applyConsolidationRule_consolidated_metadata (p : Ports)
    (rule : ConsolidationRule) (m0 : Memory) (ms : List Memory)
    (newId : String) (now : Int) (res : ConsolidationResult)
    (h : applyConsolidationRule p (m0 :: ms) rule newId now =
      Except.ok res) :
    res.newMemory.metadata.agentId = m0.metadata.agentId ∧
    res.newMemory.metadata.projectId = m0.metadata.projectId ∧
    res.newMemory.metadata.source = "consolidation" ∧
    res.newMemory.metadata.type = MemoryType.knowledge ∧
    res.newMemory.accessCount = 1 ∧
    res.newMemory.importance ∈ (m0 :: ms).map Memory.importance ∧
    (∀ i ∈ (m0 :: ms).map Memory.importance,
      i ≤ res.newMemory.importance) ∧
    res.newMemory.metadata.tags.Nodup ∧
    (∀ t, t ∈ res.newMemory.metadata.tags ↔
      ∃ mem ∈ m0 :: ms, t ∈ mem.metadata.tags) ∧
    res.newMemory.metadata.relatedMemories =
      (m0 :: ms).map Memory.id := by
  rw [applyConsolidationRule] at h
  rcases hg : generateEmbeddings p
      (if rule.transformations.generalizeKnowledge = true then
        (if rule.transformations.extractPatterns = true then
          (if rule.transformations.summarize = true then
            summarizeMemories p (m0 :: ms) else "") ++
            "\n\nPatterns identified:\n" ++ extractPatterns p (m0 :: ms)
         else
          (if rule.transformations.summarize = true then
            summarizeMemories p (m0 :: ms) else "")) ++
          "\n\nGeneralized knowledge:\n" ++ generalizeKnowledge p (m0 :: ms)
       else
        (if rule.transformations.extractPatterns = true then
          (if rule.transformations.summarize = true then
            summarizeMemories p (m0 :: ms) else "") ++
            "\n\nPatterns identified:\n" ++ extractPatterns p (m0 :: ms)
         else
          (if rule.transformations.summarize = true then
            summarizeMemories p (m0 :: ms) else ""))) with e | emb
  · rw [hg] at h
    cases h
  · rw [hg] at h
    injection h with h
    subst h
    refine ⟨rfl, rfl, rfl, rfl, rfl, ?_, ?_, ?_, ?_, rfl⟩
    · simpa using importanceMax_mem m0.importance (ms.map Memory.importance)
    · intro i hi
      simpa using le_importanceMax m0.importance (ms.map Memory.importance) i
        (by simpa using hi)
    · exact nodup_jsSetOf _
    · intro t
      rw [mem_jsSetOf, List.mem_flatMap]

/-- C10 witness: the theorem applied to a concrete two-memory group
consolidated by the default WorkingMemory rule. -/
theorem applyConsolidationRule_consolidated_metadata_witness :
    applyConsolidationRule portsOk [mA, mB] wmRule "n1" 100 =
      Except.ok res10 ∧
    res10.newMemory.metadata.agentId = mA.metadata.agentId ∧
    res10.newMemory.metadata.relatedMemories =
      [mA, mB].map Memory.id := by
  have h : applyConsolidationRule portsOk [mA, mB] wmRule "n1" 100 =
      Except.ok res10 := by rfl
  have hx := applyConsolidationRule_consolidated_metadata portsOk wmRule
    mA [mB] "n1" 100 res10 h
  exact ⟨h, hx.1, hx.2.2.2.2.2.2.2.2.2⟩

/-- The used set after the founder scan is the reversed list of the
added members' ids on top of the incoming used set. -/
theorem collectRelated_snd (rel : Memory → Memory → Bool) (f : Memory) :
    ∀ (l : List Memory) (used : List String),
      (collectRelated rel f l used).2 =
        ((collectRelated rel f l used).1.map Memory.id).reverse ++ used := by
  intro l
  induction l with
  | nil => intro used; simp [collectRelated]
  | cons other rest ih =>
    intro used
    by_cases h1 : other.id ∈ used
    · simp [collectRelated, h1, ih]
    · by_cases h2 : rel f other = true
      · simp [collectRelated, h1, h2, ih (other.id :: used)]
      · simp [collectRelated, h1, h2, ih]

/-- Every member added by the founder scan comes from the scan list and
was not in the incoming used set. -/
theorem collectRelated_fst_mem (rel : Memory → Memory → Bool)
    (f : Memory) :
    ∀ (l : List Memory) (used : List String) (x : Memory),
      x ∈ (collectRelated rel f l used).1 → x ∈ l ∧ x.id ∉ used := by
  intro l
  induction l with
  | nil => intro used x hx; simp [collectRelated] at hx
  | cons other rest ih =>
    intro used x hx
    by_cases h1 : other.id ∈ used
    · simp only [collectRelated, if_pos h1] at hx
      obtain ⟨hm, hu⟩ := ih used x hx
      exact ⟨List.mem_cons_of_mem other hm, hu⟩
    · by_cases h2 : rel f other = true
      · simp only [collectRelated, if_neg h1, if_pos h2,
          List.mem_cons] at hx
        rcases hx with rfl | hx
        · exact ⟨List.mem_cons_self x rest, h1⟩
        · obtain ⟨hm, hu⟩ := ih (other.id :: used) x hx
          exact ⟨List.mem_cons_of_mem other hm,
            fun hh => hu (List.mem_cons_of_mem other.id hh)⟩
      · simp only [collectRelated, if_neg h1, if_neg h2] at hx
        obtain ⟨hm, hu⟩ := ih used x hx
        exact ⟨List.mem_cons_of_mem other hm, hu⟩

/-- The founder scan preserves Nodup of the used set. -/
theorem collectRelated_snd_nodup (rel : Memory → Memory → Bool)
    (f : Memory) :
    ∀ (l : List Memory) (used : List String), used.Nodup →
      (collectRelated rel f l used).2.Nodup := by
  intro l
  induction l with
  | nil => intro used h; simpa [collectRelated] using h
  | cons other rest ih =>
    intro used h
    by_cases h1 : other.id ∈ used
    · simpa [collectRelated, h1] using ih used h
    · by_cases h2 : rel f other = true
      · simp only [collectRelated, if_neg h1, if_pos h2]
        exact ih (other.id :: used) (List.nodup_cons.mpr ⟨h1, h⟩)
      · simpa [collectRelated, h1, h2] using ih used h

/-- Splitting a filter along a kept sublist E: prepending E and
excluding its ids from the filter is a permutation of the plain
filter (over id-unique lists). -/
theorem perm_filter_split (p : Memory → Bool) :
    ∀ (E L : List Memory),
      (∀ x ∈ E, x ∈ L) → (∀ x ∈ E, p x = true) →
      (E.map Memory.id).Nodup → (L.map Memory.id).Nodup →
      (E ++ L.filter fun x =>
        p x && !(E.map Memory.id).contains x.id).Perm (L.filter p) := by
  intro E
  induction E with
  | nil =>
    intro L _ _ _ _
    simp only [List.nil_append, List.map_nil]
    have : (L.filter fun x => p x && !([] : List String).contains x.id)
        = L.filter p := by
      apply List.filter_congr
      intro x _
      simp [List.contains]
    rw [this]
  | cons e E' ih =>
    intro L hEL hEp hE hL
    have heL : e ∈ L := hEL e (List.mem_cons_self e E')
    have hpe : p e = true := hEp e (List.mem_cons_self e E')
    rw [List.map_cons] at hE
    have heid : e.id ∉ E'.map Memory.id := (List.nodup_cons.mp hE).1
    have hE' : (E'.map Memory.id).Nodup := (List.nodup_cons.mp hE).2
    have hLnodup : L.Nodup := List.Nodup.of_map Memory.id hL
    have hperm : L.Perm (e :: L.erase e) := List.perm_cons_erase heL
    have hLe : ((L.erase e).map Memory.id).Nodup :=
      List.Nodup.sublist (List.Sublist.map Memory.id
        (List.erase_sublist e L)) hL
    have hinj : ∀ x ∈ L, x.id = e.id → x = e :=
      fun x hx hxe => List.inj_on_of_nodup_map hL hx heL hxe
    have stepA : (L.filter fun x =>
        p x && !((e :: E').map Memory.id).contains x.id).Perm
        ((L.erase e).filter fun x =>
          p x && !((e :: E').map Memory.id).contains x.id) := by
      have hstep := hperm.filter (fun x =>
        p x && !((e :: E').map Memory.id).contains x.id)
      simpa [List.filter_cons, hpe] using hstep
    have stepB : ((L.erase e).filter fun x =>
        p x && !((e :: E').map Memory.id).contains x.id) =
        ((L.erase e).filter fun x =>
          p x && !(E'.map Memory.id).contains x.id) := by
      apply List.filter_congr
      intro x hx
      have hxe : x ≠ e := ((hLnodup.mem_erase_iff).mp hx).1
      have hxL : x ∈ L := ((hLnodup.mem_erase_iff).mp hx).2
      have hxid : x.id ≠ e.id := fun hh => hxe (hinj x hxL hh)
      simp [List.contains_cons, hxid]
    have hEL' : ∀ x ∈ E', x ∈ L.erase e := by
      intro x hx
      have hxL : x ∈ L := hEL x (List.mem_cons_of_mem e hx)
      have hxid : x.id ≠ e.id := by
        intro hh
        exact heid (hh ▸ List.mem_map_of_mem Memory.id hx)
      have hxe : x ≠ e := fun hh => hxid (by rw [hh])
      exact (hLnodup.mem_erase_iff).mpr ⟨hxe, hxL⟩
    have hEp' : ∀ x ∈ E', p x = true :=
      fun x hx => hEp x (List.mem_cons_of_mem e hx)
    have ihh := ih (L.erase e) hEL' hEp' hE' hLe
    have finalR : (L.filter p).Perm (e :: (L.erase e).filter p) := by
      have hstep := hperm.filter p
      simpa [List.filter_cons, hpe] using hstep
    have hmain : (E' ++ L.filter fun x =>
        p x && !((e :: E').map Memory.id).contains x.id).Perm
        ((L.erase e).filter p) :=
      (List.Perm.append_left E' (stepA.trans (stepB ▸ List.Perm.refl _))).trans ihh
    show (e :: (E' ++ L.filter fun x =>
      p x && !((e :: E').map Memory.id).contains x.id)).Perm (L.filter p)
    exact (hmain.cons e).trans finalR.symm

/-- Main invariant of the greedy grouping loop: over an id-unique
candidate list, with a Nodup used set covering exactly the already
grouped elements, the flattened groups are a permutation of the pending
elements not yet used. -/
theorem groupLoop_flatten_perm (rel : Memory → Memory → Bool)
    (all : List Memory) (hall : (all.map Memory.id).Nodup) :
    ∀ (pending : List Memory) (used : List String),
      pending.Sublist all → used.Nodup →
      (∀ x ∈ all, x.id ∉ used → x ∈ pending) →
      ((groupLoop rel all pending used).flatten).Perm
        (pending.filter fun x => decide (x.id ∉ used)) := by
  intro pending
  induction pending with
  | nil =>
    intro used _ _ _
    simp [groupLoop]
  | cons m rest ih =>
    intro used hsub hund hcov
    have hrest : rest.Sublist all := List.sublist_of_cons_sublist hsub
    by_cases hm : m.id ∈ used
    · have hcov' : ∀ x ∈ all, x.id ∉ used → x ∈ rest := by
        intro x hx hxid
        rcases List.mem_cons.mp (hcov x hx hxid) with rfl | h
        · exact absurd hm hxid
        · exact h
      have hih := ih used hrest hund hcov'
      simpa [groupLoop, hm, List.filter_cons] using hih
    · have hmrestid : (m.id :: rest.map Memory.id).Nodup := by
        have hnd : ((m :: rest).map Memory.id).Nodup :=
          List.Nodup.sublist (List.Sublist.map Memory.id hsub) hall
        simpa using hnd
      have hmid : m.id ∉ rest.map Memory.id := (List.nodup_cons.mp hmrestid).1
      have hrestid : (rest.map Memory.id).Nodup :=
        (List.nodup_cons.mp hmrestid).2
      have hused' : (m.id :: used).Nodup := List.nodup_cons.mpr ⟨hm, hund⟩
      have hsnd := collectRelated_snd rel m all (m.id :: used)
      have hUnodup : (collectRelated rel m all (m.id :: used)).2.Nodup :=
        collectRelated_snd_nodup rel m all (m.id :: used) hused'
      have hUnodup2 := hsnd ▸ hUnodup
      have hEnodup : ((collectRelated rel m all
          (m.id :: used)).1.map Memory.id).Nodup :=
        List.nodup_reverse.mp (List.nodup_append.mp hUnodup2).1
      have hmemU : ∀ s : String,
          s ∈ (collectRelated rel m all (m.id :: used)).2 ↔
          (s ∈ (collectRelated rel m all (m.id :: used)).1.map Memory.id ∨
            s = m.id ∨ s ∈ used) := by
        intro s
        rw [hsnd]
        simp
      have hErest : ∀ x ∈ (collectRelated rel m all (m.id :: used)).1,
          x ∈ rest := by
        intro x hx
        obtain ⟨hxall, hxnot⟩ := collectRelated_fst_mem rel m all
          (m.id :: used) x hx
        have hxused : x.id ∉ used :=
          fun hh => hxnot (List.mem_cons_of_mem m.id hh)
        have hxm : x.id ≠ m.id :=
          fun hh => hxnot (hh ▸ List.mem_cons_self m.id used)
        rcases List.mem_cons.mp (hcov x hxall hxused) with rfl | h
        · exact absurd rfl hxm
        · exact h
      have hEused : ∀ x ∈ (collectRelated rel m all (m.id :: used)).1,
          x.id ∉ used :=
        fun x hx hh => (collectRelated_fst_mem rel m all (m.id :: used)
          x hx).2 (List.mem_cons_of_mem m.id hh)
      have hcov' : ∀ x ∈ all,
          x.id ∉ (collectRelated rel m all (m.id :: used)).2 → x ∈ rest := by
        intro x hx hxU
        have hx1 : x.id ∉ used :=
          fun hh => hxU ((hmemU x.id).mpr (Or.inr (Or.inr hh)))
        have hx2 : x.id ≠ m.id :=
          fun hh => hxU ((hmemU x.id).mpr (Or.inr (Or.inl hh)))
        rcases List.mem_cons.mp (hcov x hx hx1) with rfl | h
        · exact absurd rfl hx2
        · exact h
      have ihh := ih (collectRelated rel m all (m.id :: used)).2 hrest
        hUnodup hcov'
      have hfc : (rest.filter fun x =>
          decide (x.id ∉ (collectRelated rel m all (m.id :: used)).2)) =
          (rest.filter fun x => decide (x.id ∉ used) &&
            !((collectRelated rel m all
              (m.id :: used)).1.map Memory.id).contains x.id) := by
        apply List.filter_congr
        intro x hx
        have hxm : x.id ≠ m.id := by
          intro hh
          exact hmid (hh ▸ List.mem_map_of_mem Memory.id hx)
        have hiff : (x.id ∉ (collectRelated rel m all (m.id :: used)).2) ↔
            ((x.id ∉ used) ∧ x.id ∉ (collectRelated rel m all
              (m.id :: used)).1.map Memory.id) := by
          rw [hmemU x.id]
          simp [hxm]
          tauto
        have hR : (decide (x.id ∉ used) && !((collectRelated rel m all
            (m.id :: used)).1.map Memory.id).contains x.id) =
            decide ((x.id ∉ used) ∧ x.id ∉ (collectRelated rel m all
              (m.id :: used)).1.map Memory.id) := by
          have hcont : ((collectRelated rel m all
              (m.id :: used)).1.map Memory.id).contains x.id =
              decide (x.id ∈ (collectRelated rel m all
                (m.id :: used)).1.map Memory.id) := by
            simp
          rw [hcont, ← decide_not, ← Bool.decide_and]
        rw [hR, decide_eq_decide]
        exact hiff
      have hsplit := perm_filter_split (fun x => decide (x.id ∉ used))
        (collectRelated rel m all (m.id :: used)).1 rest hErest
        (fun x hx => decide_eq_true (hEused x hx)) hEnodup hrestid
      have hgoalL : groupLoop rel all (m :: rest) used =
          (m :: (collectRelated rel m all (m.id :: used)).1) ::
            groupLoop rel all rest
              (collectRelated rel m all (m.id :: used)).2 := by
        simp [groupLoop, hm]
      rw [hgoalL, List.flatten_cons]
      have hfR : ((m :: rest).filter fun x => decide (x.id ∉ used)) =
          m :: (rest.filter fun x => decide (x.id ∉ used)) := by
        simp [List.filter_cons, hm]
      rw [hfR]
      show (m :: ((collectRelated rel m all (m.id :: used)).1 ++
        (groupLoop rel all rest
          (collectRelated rel m all (m.id :: used)).2).flatten)).Perm _
      refine List.Perm.cons m ?_
      have h1 := List.Perm.append_left
        (collectRelated rel m all (m.id :: used)).1 ihh
      exact h1.trans (by rw [hfc]; exact hsplit)

/-- C7: on any candidate list with pairwise distinct ids, the grouping
step returns groups whose concatenation is a permutation of the input:
every input memory lands in exactly one group (union is exactly the
input, no duplicates across groups, singleton groups allowed). -/
theorem groupRelatedMemories_partition (sq : Rat → Rat) (thr : Rat)
    (memories : List Memory)
    (h : (memories.map Memory.id).Nodup) :
    ((groupRelatedMemories sq thr memories).flatten).Perm memories := by
  have hmain := groupLoop_flatten_perm (areMemoriesRelated sq thr)
    memories h memories [] (List.Sublist.refl memories) List.nodup_nil
    (fun x hx _ => hx)
  simpa using hmain

/-- C7 witness: the theorem applied to three concrete memories with
distinct ids (two related via a shared task, one unrelated). -/
theorem groupRelatedMemories_partition_witness :
    (ms7.map Memory.id).Nodup ∧
    ((groupRelatedMemories (fun _ => 0) (7 / 10) ms7).flatten).Perm ms7 :=
  ⟨by decide, groupRelatedMemories_partition (fun _ => 0) (7 / 10) ms7
    (by decide)⟩
